import Mathlib

/-!
Verification of the go-remote-config refresh/health engine.

Shallow embedding conventions:
* `time.Duration` and `time.Time` are nanosecond counts (`Nat`); the Go zero
  time is `0` and `time.Now()` values are positive.
* Go maps keyed by repository name are association lists; the record
  operations update the (unique) entry with the matching name, exactly as the
  Go code updates `s.repoStatus[name]`.
* External collaborators (YAML decoding, file/S3 I/O, the network) are passed
  in as explicit function or result parameters, mirroring the spec's ruling
  that source backends and payload decoding are out of scope.
-/

/-- One second of `time.Duration`, in nanoseconds. -/
def second : Nat := 1000000000

/-- Outcome of one `Repository.Refresh()` call, as observed by a caller. -/
inductive RefreshResult where
  | ok : RefreshResult
  | err (msg : String) : RefreshResult
deriving Repr, DecidableEq

/-- True when the refresh attempt returned a nil error. -/
def RefreshResult.isOk : RefreshResult → Bool
  | .ok => true
  | .err _ => false

/-- Embeds `server.RepositoryStatus` (server/server.go). -/
structure RepositoryStatus where
  name : String
  lastRefreshTime : Nat
  lastRefreshErr : String
  refreshCount : Int
  refreshErrors : Int
  isHealthy : Bool
deriving Repr, DecidableEq

/-- The zero-valued status entry NewServer installs for each repository. -/
def initStatus (name : String) : RepositoryStatus :=
  { name := name, lastRefreshTime := 0, lastRefreshErr := "",
    refreshCount := 0, refreshErrors := 0, isHealthy := false }

/-- Field updates performed by `Server.recordRefreshSuccess` on one entry. -/
def statusAfterSuccess (st : RepositoryStatus) (now : Nat) : RepositoryStatus :=
  { st with
      lastRefreshTime := now,
      lastRefreshErr := "",
      refreshCount := st.refreshCount + 1,
      isHealthy := true }

/-- Field updates performed by `Server.recordRefreshError` on one entry. -/
def statusAfterError (st : RepositoryStatus) (e : String) : RepositoryStatus :=
  { st with
      lastRefreshErr := e,
      refreshErrors := st.refreshErrors + 1,
      isHealthy := false }

/-- Embeds `Server.recordRefreshSuccess` (server/server.go): update the entry
whose key is `name`, leave every other entry alone. -/
def Server.recordRefreshSuccess (l : List RepositoryStatus) (name : String)
    (now : Nat) : List RepositoryStatus :=
  l.map fun st => if st.name = name then statusAfterSuccess st now else st

/-- Embeds `Server.recordRefreshError` (server/server.go). -/
def Server.recordRefreshError (l : List RepositoryStatus) (name : String)
    (e : String) : List RepositoryStatus :=
  l.map fun st => if st.name = name then statusAfterError st e else st

/-- Embeds `Server.IsHealthy` (server/server.go): the loop returns false on
the first unhealthy entry, otherwise the result is `len(s.repoStatus) > 0`. -/
def Server.IsHealthy (l : List RepositoryStatus) : Bool :=
  if l.any fun st => !st.isHealthy then false else decide (0 < l.length)

/-- Embeds `Server.IsReady` (server/server.go): the loop returns true on the
first entry with `RefreshCount > 0 && IsHealthy`. -/
def Server.IsReady (l : List RepositoryStatus) : Bool :=
  l.any fun st => decide (0 < st.refreshCount) && st.isHealthy

/-- A repository handed to `NewServer`, reduced to the fields the server
constructor consumes: its name and the result of its first `Refresh()`. -/
structure RepoSpec where
  name : String
  firstRefresh : RefreshResult
deriving Repr, DecidableEq

/-- Go map insertion `server.repoStatus[name] = &RepositoryStatus{Name: name}`
on the association-list representation: overwrite an existing entry with the
same key, otherwise append. -/
def insertInitStatus (l : List RepositoryStatus) (name : String) :
    List RepositoryStatus :=
  if l.any fun st => st.name = name then
    l.map fun st => if st.name = name then initStatus name else st
  else l ++ [initStatus name]

/-- First loop of `NewServer`: install a zeroed status entry per repository. -/
def initialStatuses (repos : List RepoSpec) : List RepositoryStatus :=
  repos.foldl (fun acc r => insertInitStatus acc r.name) []

/-- Second loop of `NewServer`: one synchronous refresh per repository,
recording success or failure; `now` is the wall-clock time of the pass. -/
def initialRefreshPass (l : List RepositoryStatus) (repos : List RepoSpec)
    (now : Nat) : List RepositoryStatus :=
  repos.foldl (fun acc r =>
    match r.firstRefresh with
    | .ok => Server.recordRefreshSuccess acc r.name now
    | .err e => Server.recordRefreshError acc r.name e) l

/-- The `repoStatus` map produced by `NewServer` (server/server.go): zeroed
entries followed by the initial synchronous refresh pass. Construction is a
total function: no per-repository failure aborts it. -/
def newServerStatuses (repos : List RepoSpec) (now : Nat) :
    List RepositoryStatus :=
  initialRefreshPass (initialStatuses repos) repos now

/-- Embeds the interval floor at the top of `NewServer` (server/server.go):
below 5 seconds the interval is replaced by 5 seconds. -/
def newServerRefreshInterval (requested : Nat) : Nat :=
  if requested < 5 * second then 5 * second else requested

/-- Embeds `client.Client`'s refresh-tracking state
(the `client` package: closed flag plus the mutex-guarded status fields). -/
structure ClientState where
  refreshInterval : Nat
  closed : Bool
  lastRefreshTime : Nat
  lastRefreshErr : Option String
  refreshCount : Int
  refreshErrors : Int
deriving Repr, DecidableEq

/-- Embeds `client.RefreshStatus`. -/
structure ClientRefreshStatus where
  lastRefreshTime : Nat
  lastRefreshErr : Option String
  refreshCount : Int
  refreshErrors : Int
  isStale : Bool
  staleDuration : Nat
deriving Repr, DecidableEq

/-- Embeds `Client.GetRefreshStatus`: staleness fields are filled in only when
`lastRefreshTime` is not the zero time, and `IsStale` is
`StaleDuration > RefreshInterval * 2`. -/
def Client.GetRefreshStatus (c : ClientState) (now : Nat) : ClientRefreshStatus :=
  let base : ClientRefreshStatus :=
    { lastRefreshTime := c.lastRefreshTime, lastRefreshErr := c.lastRefreshErr,
      refreshCount := c.refreshCount, refreshErrors := c.refreshErrors,
      isStale := false, staleDuration := 0 }
  if c.lastRefreshTime = 0 then base
  else
    { base with
        staleDuration := now - c.lastRefreshTime,
        isStale := decide (c.refreshInterval * 2 < now - c.lastRefreshTime) }

/-- Embeds `Client.IsHealthy`: false when closed, otherwise the negation of
the staleness bit; the last refresh error is never consulted. -/
def Client.IsHealthy (c : ClientState) (now : Nat) : Bool :=
  if c.closed then false else !(Client.GetRefreshStatus c now).isStale

/-- Result of `NewClientWithOptions`, keeping the three caller-observable
facts: the client handed back (if any), whether the background refresh
goroutine was started, and the returned error. -/
structure ClientConstructionResult where
  client : Option ClientState
  refreshTaskStarted : Bool
  error : Option String
deriving Repr, DecidableEq

/-- Embeds `client.NewClientWithOptions`: one synchronous `Refresh()` first;
on failure the error is recorded and `(nil, err)` is returned before the
`go refresh(...)` statement; on success the goroutine starts and the client
is returned with one recorded success at time `now`. No interval floor is
applied. -/
def NewClientWithOptions (firstRefresh : RefreshResult)
    (refreshInterval now : Nat) : ClientConstructionResult :=
  match firstRefresh with
  | .err e => { client := none, refreshTaskStarted := false, error := some e }
  | .ok =>
    { client := some
        { refreshInterval := refreshInterval, closed := false,
          lastRefreshTime := now, lastRefreshErr := none,
          refreshCount := 1, refreshErrors := 0 },
      refreshTaskStarted := true, error := none }

/-- Dynamic value shapes the library's accessors actually decode
(scalars, and arrays of strings), standing in for `interface{}` values. -/
inductive Val where
  | str (s : String)
  | int (n : Int)
  | boolean (b : Bool)
  | strings (l : List String)
deriving Repr, DecidableEq

/-- Reflection-level type tags (`reflect.Type`) for the shapes in `Val`. -/
inductive VType where
  | tStr
  | tInt
  | tBool
  | tStrings
deriving Repr, DecidableEq

/-- The `reflect.Type` of a dynamic value. -/
def Val.typeOf : Val → VType
  | .str _ => .tStr
  | .int _ => .tInt
  | .boolean _ => .tBool
  | .strings _ => .tStrings

/-- Embeds `client.setDefaultValue`: a nil default is a no-op; a nil or
non-pointer `data` is a no-op; the pointee is overwritten only when the
default's dynamic type equals the pointee type. The out-pointer is modelled
as `Option (VType, Val)`: `none` is a nil pointer, `some (t, v)` a non-nil
pointer to a value `v` of type `t`. -/
def setDefaultValue (out : Option (VType × Val)) (dflt : Option Val) :
    Option (VType × Val) :=
  match dflt with
  | none => out
  | some d =>
    match out with
    | none => none
    | some (t, v) => if d.typeOf = t then (some (t, d)) else (some (t, v))

/-- `Repository.GetData`: lookup in the decoded snapshot map. -/
def lookupData (repoData : List (String × Val)) (name : String) : Option Val :=
  (repoData.find? fun p => p.1 = name).map fun p => p.2

/-- Embeds `Client.GetConfig` (the `client` package). The YAML round-trip
`yaml.Marshal(config)` / `yaml.Unmarshal(marshal, data)` is an external
collaborator and is passed in as `decode`, which either produces a value of
the pointee's shape or fails with a message; unmarshalling into a nil
pointer always fails in the yaml library, modelled by the fixed message.
Every failure branch calls `setDefaultValue` and returns a non-nil error,
exactly as the source does. -/
def Client.GetConfig (c : ClientState) (repoData : List (String × Val))
    (name : String) (out : Option (VType × Val)) (dflt : Option Val)
    (decode : Val → VType → Except String Val) :
    Option (VType × Val) × Option String :=
  if c.closed then (setDefaultValue out dflt, some "client is closed")
  else
    match lookupData repoData name with
    | none => (setDefaultValue out dflt, some "config not found")
    | some config =>
      match out with
      | none =>
        (setDefaultValue none dflt, some "yaml: unmarshal into a nil pointer")
      | some (t, v) =>
        match decode config t with
        | .error msg => (setDefaultValue (some (t, v)) dflt, some msg)
        | .ok decoded => (some (t, decoded), none)

/-- A repository as seen by the HTTP layer: routing name and raw bytes. -/
structure ServerRepo where
  name : String
  rawData : String
deriving Repr, DecidableEq

/-- An incoming HTTP request, reduced to the fields the server consults.
`apiKey` is `r.Header.Get` of the X-API-KEY header, which yields the empty
string when the header is absent. -/
structure HttpRequest where
  method : String
  path : String
  apiKey : String
deriving Repr, DecidableEq

/-- The response each handler branch writes. `unauthorized` is
`http.Error(w, msg, 401)` with the literal body text, `notFound` is the
mux's 404, and the JSON bodies are abstracted to the booleans they encode. -/
inductive RouteResponse where
  | methodNotAllowed
  | healthJson (healthy : Bool)
  | readyJson (ready : Bool)
  | statusJson (healthy ready : Bool)
  | rawConfig (content : String)
  | notFound
  | unauthorized (body : String)
deriving Repr, DecidableEq

/-- HTTP status code of each response branch. -/
def RouteResponse.statusCode : RouteResponse → Nat
  | .methodNotAllowed => 405
  | .healthJson h => if h then 200 else 503
  | .readyJson r => if r then 200 else 503
  | .statusJson _ _ => 200
  | .rawConfig _ => 200
  | .notFound => 404
  | .unauthorized _ => 401

/-- The method guard shared by every handler in `CreateHandlers`. -/
def isGetOrHead (m : String) : Bool := m = "GET" || m = "HEAD"

/-- Embeds `Server.CreateHandlers` (server/server.go): exact-match routes for
/health, /ready, /status and one `/`+name route per repository; anything
else falls through to the mux's 404. -/
def CreateHandlers (repos : List ServerRepo) (statuses : List RepositoryStatus)
    (req : HttpRequest) : RouteResponse :=
  if req.path = "/health" then
    if !isGetOrHead req.method then .methodNotAllowed
    else .healthJson (Server.IsHealthy statuses)
  else if req.path = "/ready" then
    if !isGetOrHead req.method then .methodNotAllowed
    else .readyJson (Server.IsReady statuses)
  else if req.path = "/status" then
    if !isGetOrHead req.method then .methodNotAllowed
    else .statusJson (Server.IsHealthy statuses) (Server.IsReady statuses)
  else
    match repos.find? fun repo => ("/" ++ repo.name) = req.path with
    | some repo =>
      if !isGetOrHead req.method then .methodNotAllowed
      else .rawConfig repo.rawData
    | none => .notFound

/-- Embeds the `Auth` middleware (server/server.go): 401 when the header is
absent (empty) or fails the constant-time comparison with the key, which for
equal-length byte strings is string equality; otherwise the request is
forwarded to the wrapped handler. -/
def Auth (next : HttpRequest → RouteResponse) (authKey : String)
    (req : HttpRequest) : RouteResponse :=
  if req.apiKey = "" then .unauthorized "Unauthorized"
  else if req.apiKey ≠ authKey then .unauthorized "Unauthorized"
  else next req

/-- Embeds the handler wiring in `Server.Start` (server/server.go): the etag
wrapper is semantically transparent, and when `AuthKey` is non-empty the Auth
middleware wraps the WHOLE mux, health and readiness routes included. -/
def Server.Start (repos : List ServerRepo) (statuses : List RepositoryStatus)
    (authKey : String) (req : HttpRequest) : RouteResponse :=
  if authKey ≠ "" then Auth (CreateHandlers repos statuses) authKey req
  else CreateHandlers repos statuses req

/-- Observable steps of `Server.Shutdown`, in program order: `Stop()` cancels
the shared context, then `wg.Wait()` returns only once every refresh
goroutine has run its deferred `Done` (so no later status-map write exists),
and only then does `httpServer.Shutdown` begin draining the listener. -/
inductive ShutdownEvent where
  | cancelRefreshTasks
  | refreshTasksJoined
  | listenerCloseBegin
  | listenerCloseEnd
deriving Repr, DecidableEq

/-- Embeds `Server.Stop` (server/server.go): `s.cancel()` then `s.wg.Wait()`. -/
def Server.Stop : List ShutdownEvent :=
  [.cancelRefreshTasks, .refreshTasksJoined]

/-- The shutdown timeout installed by `NewServer`: 30 seconds. -/
def defaultShutdownTimeout : Nat := 30 * second

/-- Embeds `Server.Shutdown` (server/server.go) as the trace of events the
sequential body produces together with the returned error: `Stop()` first;
a nil `httpServer` returns nil immediately; otherwise the listener drain
begins, completes within `closeDuration`, and `httpServer.Shutdown` reports
the context-deadline error when the drain takes longer than the timeout.
The returned trace is the complete trace at the moment `Shutdown` returns. -/
def Server.Shutdown (hasListener : Bool)
    (closeDuration shutdownTimeout : Nat) :
    List ShutdownEvent × Option String :=
  if !hasListener then (Server.Stop, none)
  else if shutdownTimeout < closeDuration then
    (Server.Stop ++ [.listenerCloseBegin],
      some "server shutdown failed: context deadline exceeded")
  else (Server.Stop ++ [.listenerCloseBegin, .listenerCloseEnd], none)

/-- One background refresh completion: which repository, with what result,
at what time. The server's per-repository goroutines interleave these
records arbitrarily; a trace is any such interleaving. -/
structure RefreshEvent where
  repoName : String
  result : RefreshResult
  time : Nat
deriving Repr, DecidableEq

/-- Effect of recording one refresh result on a single status entry. -/
def applyResult (st : RepositoryStatus) (p : RefreshResult × Nat) :
    RepositoryStatus :=
  match p.1 with
  | .ok => statusAfterSuccess st p.2
  | .err e => statusAfterError st e

/-- Effect of a sequence of recorded results on a single status entry. -/
def applyResults (st : RepositoryStatus) (rs : List (RefreshResult × Nat)) :
    RepositoryStatus :=
  rs.foldl applyResult st

/-- Effect of one refresh event on the status map, exactly as the refresh
goroutine records it (server/server.go, `Server.refresh`). -/
def serverTraceStep (l : List RepositoryStatus) (ev : RefreshEvent) :
    List RepositoryStatus :=
  match ev.result with
  | .ok => Server.recordRefreshSuccess l ev.repoName ev.time
  | .err e => Server.recordRefreshError l ev.repoName e

/-- Status map after a trace of recorded refresh events. -/
def serverAfterTrace (l : List RepositoryStatus) (tr : List RefreshEvent) :
    List RepositoryStatus :=
  tr.foldl serverTraceStep l

/-- The results a trace records against one repository name, in order. -/
def eventsFor (name : String) (tr : List RefreshEvent) :
    List (RefreshResult × Nat) :=
  (tr.filter fun ev => ev.repoName = name).map fun ev => (ev.result, ev.time)

/-- The events recorded by the initial synchronous refresh pass of
`NewServer`, one per repository in order. -/
def constructionTrace (repos : List RepoSpec) (now : Nat) :
    List RefreshEvent :=
  repos.map fun r => { repoName := r.name, result := r.firstRefresh, time := now }

/-- The most recent refresh outcome of repository `r` after the background
trace `tr`: the last event recorded against its name, or its construction
refresh when the trace never touched it. -/
def lastOutcome (r : RepoSpec) (tr : List RefreshEvent) : RefreshResult :=
  match (tr.filter fun ev => ev.repoName = r.name).getLast? with
  | some ev => ev.result
  | none => r.firstRefresh

theorem applyResult_name (st : RepositoryStatus) (p : RefreshResult × Nat) :
    (applyResult st p).name = st.name := by
  rcases p with ⟨r, t⟩
  cases r <;> rfl

theorem applyResults_name (st : RepositoryStatus)
    (rs : List (RefreshResult × Nat)) : (applyResults st rs).name = st.name := by
  induction rs generalizing st with
  | nil => rfl
  | cons p rs ih =>
    show (applyResults (applyResult st p) rs).name = st.name
    rw [ih, applyResult_name]

theorem serverTraceStep_eq_map (l : List RepositoryStatus) (ev : RefreshEvent) :
    serverTraceStep l ev =
      l.map fun st =>
        if st.name = ev.repoName then applyResult st (ev.result, ev.time)
        else st := by
  rcases ev with ⟨n, r, t⟩
  cases r <;> rfl

theorem eventsFor_cons (name : String) (ev : RefreshEvent)
    (tr : List RefreshEvent) :
    eventsFor name (ev :: tr) =
      if ev.repoName = name then (ev.result, ev.time) :: eventsFor name tr
      else eventsFor name tr := by
  unfold eventsFor
  rw [List.filter_cons]
  by_cases h : ev.repoName = name
  · simp [h]
  · simp [h]

theorem serverAfterTrace_eq_map (l : List RepositoryStatus)
    (tr : List RefreshEvent) :
    serverAfterTrace l tr =
      l.map fun st => applyResults st (eventsFor st.name tr) := by
  induction tr generalizing l with
  | nil =>
    simp [serverAfterTrace, eventsFor, applyResults]
  | cons ev tr ih =>
    show serverAfterTrace (serverTraceStep l ev) tr = _
    rw [ih, serverTraceStep_eq_map, List.map_map]
    refine List.map_congr_left fun st _ => ?_
    simp only [Function.comp]
    by_cases h : st.name = ev.repoName
    · rw [if_pos h, applyResult_name, eventsFor_cons, if_pos h.symm]
      rfl
    · rw [if_neg h, eventsFor_cons,
        if_neg (fun hc => h hc.symm)]

theorem applyResults_isHealthy (st : RepositoryStatus)
    (rs : List (RefreshResult × Nat)) :
    (applyResults st rs).isHealthy =
      (match rs.getLast? with
       | some p => p.1.isOk
       | none => st.isHealthy) := by
  induction rs generalizing st with
  | nil => rfl
  | cons p rs ih =>
    cases rs with
    | nil =>
      rcases p with ⟨r, t⟩
      cases r <;> rfl
    | cons q rs' =>
      show (applyResults (applyResult st p) (q :: rs')).isHealthy = _
      rw [ih, List.getLast?_cons_cons]
      cases hq : (q :: rs').getLast? with
      | none => simp at hq
      | some z => rfl

/-- Per-entry counter invariant: success counts never go negative, and a
healthy flag implies at least one recorded success. -/
def statusCountInv (st : RepositoryStatus) : Prop :=
  0 ≤ st.refreshCount ∧ (st.isHealthy = true → 0 < st.refreshCount)

theorem applyResult_inv {st : RepositoryStatus} (h : statusCountInv st)
    (p : RefreshResult × Nat) : statusCountInv (applyResult st p) := by
  rcases p with ⟨r, t⟩
  rcases h with ⟨h1, h2⟩
  cases r with
  | ok =>
    constructor
    · simp only [applyResult, statusAfterSuccess]
      omega
    · intro _
      simp only [applyResult, statusAfterSuccess]
      omega
  | err e =>
    constructor
    · exact h1
    · intro hh
      simp [applyResult, statusAfterError] at hh

theorem applyResults_inv {st : RepositoryStatus} (h : statusCountInv st)
    (rs : List (RefreshResult × Nat)) : statusCountInv (applyResults st rs) := by
  induction rs generalizing st with
  | nil => exact h
  | cons p rs ih => exact ih (applyResult_inv h p)

theorem initStatus_inv (name : String) : statusCountInv (initStatus name) := by
  constructor
  · simp [initStatus]
  · intro h
    simp [initStatus] at h

theorem foldl_insertInitStatus (repos : List RepoSpec)
    (l : List RepositoryStatus) (hd : (repos.map RepoSpec.name).Nodup)
    (hl : ∀ st ∈ l, ∀ r ∈ repos, st.name ≠ r.name) :
    repos.foldl (fun acc r => insertInitStatus acc r.name) l
      = l ++ repos.map fun r => initStatus r.name := by
  induction repos generalizing l with
  | nil => simp
  | cons r repos ih =>
    rw [List.map_cons] at hd
    rcases List.nodup_cons.mp hd with ⟨hrn, hd'⟩
    have hnotin : (l.any fun st => st.name = r.name) = false := by
      rw [List.any_eq_false]
      intro st hst
      simp only [decide_eq_true_eq]
      exact hl st hst r (List.mem_cons_self r repos)
    have hins : insertInitStatus l r.name = l ++ [initStatus r.name] := by
      unfold insertInitStatus
      rw [hnotin]
      simp
    have hl' : ∀ st ∈ l ++ [initStatus r.name], ∀ r' ∈ repos,
        st.name ≠ r'.name := by
      intro st hst r' hr'
      rcases List.mem_append.mp hst with h | h
      · exact hl st h r' (List.mem_cons_of_mem r hr')
      · have hst' : st = initStatus r.name := by simpa using h
        rw [hst']
        intro hc
        have hc' : r'.name = r.name := (show r.name = r'.name from hc).symm
        exact hrn (hc' ▸ List.mem_map_of_mem RepoSpec.name hr')
    rw [List.foldl_cons, hins, ih (l ++ [initStatus r.name]) hd' hl']
    simp

theorem initialStatuses_eq (repos : List RepoSpec)
    (hd : (repos.map RepoSpec.name).Nodup) :
    initialStatuses repos = repos.map fun r => initStatus r.name := by
  unfold initialStatuses
  simpa using foldl_insertInitStatus repos [] hd (by simp)

theorem initialRefreshPass_eq_trace (repos : List RepoSpec)
    (l : List RepositoryStatus) (now : Nat) :
    initialRefreshPass l repos now
      = serverAfterTrace l (constructionTrace repos now) := by
  induction repos generalizing l with
  | nil => rfl
  | cons r repos ih =>
    unfold initialRefreshPass constructionTrace serverAfterTrace
    rw [List.foldl_cons, List.map_cons, List.foldl_cons]
    have hstep : (match r.firstRefresh with
        | .ok => Server.recordRefreshSuccess l r.name now
        | .err e => Server.recordRefreshError l r.name e)
        = serverTraceStep l
            { repoName := r.name, result := r.firstRefresh, time := now } := by
      cases r.firstRefresh <;> rfl
    rw [hstep]
    exact ih _

theorem serverAfterTrace_append (l : List RepositoryStatus)
    (a b : List RefreshEvent) :
    serverAfterTrace l (a ++ b) = serverAfterTrace (serverAfterTrace l a) b := by
  simp [serverAfterTrace, List.foldl_append]

theorem filter_name_eq_single {repos : List RepoSpec}
    (hd : (repos.map RepoSpec.name).Nodup) {r : RepoSpec} (hr : r ∈ repos) :
    (repos.filter fun x => x.name = r.name) = [r] := by
  induction repos with
  | nil => cases hr
  | cons a repos ih =>
    rw [List.map_cons] at hd
    rcases List.nodup_cons.mp hd with ⟨han, hd'⟩
    rcases List.mem_cons.mp hr with h | h
    · subst h
      have hnil : (repos.filter fun x => x.name = r.name) = [] := by
        rw [List.filter_eq_nil_iff]
        intro x hx
        simp only [decide_eq_true_eq]
        intro hxa
        exact han (hxa ▸ List.mem_map_of_mem RepoSpec.name hx)
      simp [List.filter_cons, hnil]
    · have hne : ¬(a.name = r.name) := fun hc =>
        han (hc ▸ List.mem_map_of_mem RepoSpec.name h)
      simp [List.filter_cons, hne, ih hd' h]

theorem eventsFor_constructionTrace (repos : List RepoSpec) (now : Nat)
    (name : String) :
    eventsFor name (constructionTrace repos now)
      = (repos.filter fun x => x.name = name).map
          fun x => (x.firstRefresh, now) := by
  induction repos with
  | nil => rfl
  | cons a repos ih =>
    show eventsFor name
        ({ repoName := a.name, result := a.firstRefresh, time := now }
          :: constructionTrace repos now) = _
    rw [eventsFor_cons, List.filter_cons]
    by_cases h : a.name = name
    · simp [h, ih]
    · simp [h, ih]

theorem eventsFor_full {repos : List RepoSpec}
    (hd : (repos.map RepoSpec.name).Nodup) {r : RepoSpec} (hr : r ∈ repos)
    (now : Nat) (tr : List RefreshEvent) :
    eventsFor r.name (constructionTrace repos now ++ tr)
      = (r.firstRefresh, now) :: eventsFor r.name tr := by
  have happ : eventsFor r.name (constructionTrace repos now ++ tr)
      = eventsFor r.name (constructionTrace repos now)
        ++ eventsFor r.name tr := by
    simp [eventsFor, List.filter_append]
  rw [happ, eventsFor_constructionTrace, filter_name_eq_single hd hr]
  rfl

theorem newServer_afterTrace_eq (repos : List RepoSpec) (now : Nat)
    (tr : List RefreshEvent) (hd : (repos.map RepoSpec.name).Nodup) :
    serverAfterTrace (newServerStatuses repos now) tr
      = repos.map fun r =>
          applyResults (initStatus r.name)
            (eventsFor r.name (constructionTrace repos now ++ tr)) := by
  unfold newServerStatuses
  rw [initialRefreshPass_eq_trace, ← serverAfterTrace_append,
    serverAfterTrace_eq_map, initialStatuses_eq repos hd, List.map_map]
  rfl

theorem entry_isHealthy (r : RepoSpec) (now : Nat) (tr : List RefreshEvent) :
    (applyResults (initStatus r.name)
        ((r.firstRefresh, now) :: eventsFor r.name tr)).isHealthy
      = (lastOutcome r tr).isOk := by
  show (applyResults (applyResult (initStatus r.name) (r.firstRefresh, now))
      (eventsFor r.name tr)).isHealthy = _
  rw [applyResults_isHealthy]
  unfold lastOutcome eventsFor
  rw [List.getLast?_map]
  cases h : (tr.filter fun ev => ev.repoName = r.name).getLast? with
  | none =>
    simp only [Option.map_none']
    cases r.firstRefresh <;> rfl
  | some ev => rfl

theorem Server_IsHealthy_iff (l : List RepositoryStatus) :
    Server.IsHealthy l = true ↔ (∀ st ∈ l, st.isHealthy = true) ∧ 0 < l.length := by
  unfold Server.IsHealthy
  by_cases hb : (l.any fun st => !st.isHealthy) = true
  · rw [if_pos hb]
    rcases List.any_eq_true.mp hb with ⟨st, hst, hbst⟩
    simp only [Bool.not_eq_eq_eq_not, Bool.not_true] at hbst
    constructor
    · intro h
      exact absurd h (by simp)
    · rintro ⟨hall, -⟩
      rw [hall st hst] at hbst
      exact absurd hbst (by simp)
  · rw [if_neg hb]
    have hb' : (l.any fun st => !st.isHealthy) = false := by
      cases h2 : l.any fun st => !st.isHealthy
      · rfl
      · exact absurd h2 hb
    have hall : ∀ st ∈ l, st.isHealthy = true := by
      intro st hst
      have := List.any_eq_false.mp hb' st hst
      simpa using this
    simp only [decide_eq_true_eq]
    exact ⟨fun h => ⟨hall, h⟩, fun h => h.2⟩

theorem Server_IsReady_iff (l : List RepositoryStatus) :
    Server.IsReady l = true
      ↔ ∃ st ∈ l, 0 < st.refreshCount ∧ st.isHealthy = true := by
  simp [Server.IsReady, List.any_eq_true]

/-- C1: the claim says /health and /ready bypass the auth gate while /status
and repository routes require it. The code contradicts it (and its own test,
TestServerHealthEndpointsBypassAuth): `Server.Start` wraps the ENTIRE mux in
`Auth` whenever AuthKey is non-empty, so GET /health and GET /ready without
an X-API-KEY header receive 401 Unauthorized. This theorem evaluates the
embedded code at the failing input; the last conjunct shows the same request
succeeds when no auth key is configured, isolating the gate as the cause. -/
theorem claim_C1_health_ready_gated_by_auth :
    Server.Start [⟨"test", "name: value"⟩] [⟨"test", 5, "", 1, 0, true⟩]
        "secret-key" ⟨"GET", "/health", ""⟩ = .unauthorized "Unauthorized" ∧
    Server.Start [⟨"test", "name: value"⟩] [⟨"test", 5, "", 1, 0, true⟩]
        "secret-key" ⟨"GET", "/ready", ""⟩ = .unauthorized "Unauthorized" ∧
    RouteResponse.statusCode (.unauthorized "Unauthorized") = 401 ∧
    Server.Start [⟨"test", "name: value"⟩] [⟨"test", 5, "", 1, 0, true⟩]
        "" ⟨"GET", "/health", ""⟩ = .healthJson true :=
  ⟨rfl, rfl, rfl, rfl⟩

/-- C3: for every non-closed client with a recorded successful refresh
(every constructed client has one, since NewClientWithOptions fails
construction otherwise and records the first success), IsHealthy is false
exactly when the elapsed time since the last successful refresh exceeds
twice the refresh interval. The client `c` ranges over every value of
`lastRefreshErr`, so the most recent error provably plays no role; and a
closed client is unhealthy no matter how fresh its data is. -/
theorem claim_C3_client_isHealthy_staleness_only (c : ClientState) (now : Nat) :
    (c.closed = false → c.lastRefreshTime ≠ 0 →
      (Client.IsHealthy c now = false ↔
        c.refreshInterval * 2 < now - c.lastRefreshTime)) ∧
    (c.closed = true → Client.IsHealthy c now = false) := by
  constructor
  · intro hopen hnz
    unfold Client.IsHealthy Client.GetRefreshStatus
    rw [hopen]
    simp [hnz]
  · intro hcl
    unfold Client.IsHealthy
    rw [hcl]
    rfl

/-- Witness for C3: a non-closed client whose last success was 19ns ago on a
5ns interval (with a recent refresh error on record) is unhealthy, and a
closed client is unhealthy even with perfectly fresh data. -/
theorem claim_C3_witness :
    Client.IsHealthy
        { refreshInterval := 5, closed := false, lastRefreshTime := 1,
          lastRefreshErr := some "transient fetch failure",
          refreshCount := 3, refreshErrors := 1 } 20 = false ∧
    Client.IsHealthy
        { refreshInterval := 5, closed := true, lastRefreshTime := 1,
          lastRefreshErr := none, refreshCount := 3, refreshErrors := 0 }
        2 = false :=
  ⟨((claim_C3_client_isHealthy_staleness_only _ 20).1 rfl (by decide)).mpr
      (by decide),
   (claim_C3_client_isHealthy_staleness_only _ 2).2 rfl⟩

/-- C4 as stated is false: only the Server constructor enforces the 5s
floor. `NewClientWithOptions` (and thus NewClient) contains no floor check,
so a client requested at 1 second keeps an effective interval of 1 second,
not 5 seconds. -/
theorem claim_C4_counterexample :
    (NewClientWithOptions .ok (1 * second) 7).client.map
        ClientState.refreshInterval = some (1 * second) ∧
    (1 * second ≠ 5 * second) := by
  exact ⟨rfl, by decide⟩

/-- C4 amended: Server construction raises any requested interval below
5 seconds to 5 seconds (in particular 1s becomes 5s); Client construction
applies no floor and hands back exactly the requested interval. -/
theorem claim_C4_amended_floor_is_server_only :
    (∀ requested : Nat, requested < 5 * second →
        newServerRefreshInterval requested = 5 * second) ∧
    newServerRefreshInterval (1 * second) = 5 * second ∧
    (∀ (firstRefresh : RefreshResult) (d now : Nat) (c : ClientState),
        (NewClientWithOptions firstRefresh d now).client = some c →
        c.refreshInterval = d) := by
  refine ⟨?_, by decide, ?_⟩
  · intro requested h
    unfold newServerRefreshInterval
    rw [if_pos h]
  · intro f d now c h
    cases f with
    | ok =>
      have hc : c =
          { refreshInterval := d
            closed := false
            lastRefreshTime := now
            lastRefreshErr := none
            refreshCount := 1
            refreshErrors := 0 } := by
        simpa [NewClientWithOptions] using h.symm
      rw [hc]
    | err e => simp [NewClientWithOptions] at h

/-- Witness for the amended C4: the 1s request is floored to 5s by the
server, while a client constructed with a 1s request keeps 1s. -/
theorem claim_C4_witness :
    newServerRefreshInterval (1 * second) = 5 * second ∧
    ({ refreshInterval := 1 * second, closed := false, lastRefreshTime := 7,
        lastRefreshErr := none, refreshCount := 1, refreshErrors := 0 }
      : ClientState).refreshInterval = 1 * second :=
  ⟨(claim_C4_amended_floor_is_server_only.1 (1 * second) (by decide)),
   (claim_C4_amended_floor_is_server_only.2.2 .ok (1 * second) 7 _ rfl)⟩

/-- C5: client construction runs one synchronous refresh before returning.
When that refresh errors, the very same error is returned, no client value
is handed to the caller, and the background refresh goroutine (whose `go`
statement sits after the early return) is never started. When it succeeds,
the returned client already carries the recorded success. -/
theorem claim_C5_client_construction_synchronous_refresh :
    (∀ (e : String) (interval now : Nat),
        NewClientWithOptions (.err e) interval now
          = { client := none, refreshTaskStarted := false, error := some e }) ∧
    (∀ interval now : Nat,
        NewClientWithOptions .ok interval now
          = { client := some
                { refreshInterval := interval, closed := false,
                  lastRefreshTime := now, lastRefreshErr := none,
                  refreshCount := 1, refreshErrors := 0 },
              refreshTaskStarted := true, error := none }) :=
  ⟨fun _ _ _ => rfl, fun _ _ => rfl⟩

/-- C7: on every failure path of GetConfig — closed client, key absent from
the snapshot, or decode failure — the default value is written through the
out-pointer whenever the pointer is non-nil and the default's dynamic type
matches the pointee type, and a descriptive non-nil error is returned with
the messages the source uses. -/
theorem claim_C7_getConfig_failure_injects_default
    (c : ClientState) (repoData : List (String × Val)) (name : String)
    (t : VType) (v d : Val) (decode : Val → VType → Except String Val)
    (hty : d.typeOf = t) :
    (c.closed = true →
      Client.GetConfig c repoData name (some (t, v)) (some d) decode
        = (some (t, d), some "client is closed")) ∧
    (c.closed = false → lookupData repoData name = none →
      Client.GetConfig c repoData name (some (t, v)) (some d) decode
        = (some (t, d), some "config not found")) ∧
    (∀ config msg, c.closed = false →
      lookupData repoData name = some config → decode config t = .error msg →
      Client.GetConfig c repoData name (some (t, v)) (some d) decode
        = (some (t, d), some msg)) := by
  refine ⟨?_, ?_, ?_⟩
  · intro hcl
    simp [Client.GetConfig, hcl, setDefaultValue, hty]
  · intro hop hlk
    simp [Client.GetConfig, hop, hlk, setDefaultValue, hty]
  · intro config msg hop hlk hdec
    simp [Client.GetConfig, hop, hlk, hdec, setDefaultValue, hty]

/-- Witness for C7, the spec's Scenario E: on a live client whose snapshot
lacks the key "missing", GetConfig with default "dflt" returns the error
"config not found" and leaves "dflt" in the out variable. -/
theorem claim_C7_witness :
    Client.GetConfig
        { refreshInterval := 10 * second, closed := false, lastRefreshTime := 3,
          lastRefreshErr := none, refreshCount := 1, refreshErrors := 0 }
        [("name", .str "John Doe")] "missing" (some (.tStr, .str ""))
        (some (.str "dflt")) (fun v _ => .ok v)
      = (some (.tStr, .str "dflt"), some "config not found") :=
  (claim_C7_getConfig_failure_injects_default
      { refreshInterval := 10 * second, closed := false, lastRefreshTime := 3,
        lastRefreshErr := none, refreshCount := 1, refreshErrors := 0 }
      [("name", .str "John Doe")] "missing" .tStr (.str "") (.str "dflt")
      (fun v _ => .ok v) rfl).2.1 rfl (by decide)

/-- C10: in the trace `Server.Shutdown` produces, the refresh-task join
(`wg.Wait` returning, i.e. every refresh goroutine terminated and no later
status-map write exists) strictly precedes any listener-close event, and it
is present in every completed trace, so Shutdown never returns before all
refresh tasks have terminated; the listener drain is bounded by the default
30-second timeout, beyond which Shutdown returns the shutdown error. -/
theorem claim_C10_shutdown_stops_refresh_before_listener
    (hasListener : Bool) (closeDuration : Nat) :
    (∃ rest : List ShutdownEvent,
        (Server.Shutdown hasListener closeDuration defaultShutdownTimeout).1
          = ShutdownEvent.cancelRefreshTasks
              :: ShutdownEvent.refreshTasksJoined :: rest ∧
        ∀ ev ∈ rest, ev = ShutdownEvent.listenerCloseBegin
          ∨ ev = ShutdownEvent.listenerCloseEnd) ∧
    (hasListener = true → defaultShutdownTimeout < closeDuration →
      (Server.Shutdown hasListener closeDuration defaultShutdownTimeout).2
        = some "server shutdown failed: context deadline exceeded") ∧
    (hasListener = true → closeDuration ≤ defaultShutdownTimeout →
      (Server.Shutdown hasListener closeDuration defaultShutdownTimeout).2
        = none) ∧
    defaultShutdownTimeout = 30 * second := by
  refine ⟨?_, ?_, ?_, rfl⟩
  · cases hasListener with
    | false => exact ⟨[], rfl, by simp⟩
    | true =>
      by_cases h : defaultShutdownTimeout < closeDuration
      · refine ⟨[.listenerCloseBegin], ?_, by simp⟩
        unfold Server.Shutdown
        simp [h, Server.Stop]
      · refine ⟨[.listenerCloseBegin, .listenerCloseEnd], ?_, by simp⟩
        unfold Server.Shutdown
        simp [h, Server.Stop]
  · intro hl h
    subst hl
    unfold Server.Shutdown
    simp [h]
  · intro hl h
    subst hl
    unfold Server.Shutdown
    simp [Nat.not_lt.mpr h]

/-- Witness for C10: with a listener whose drain takes one nanosecond more
than the default timeout, Shutdown reports the shutdown error. -/
theorem claim_C10_witness :
    (Server.Shutdown true (defaultShutdownTimeout + 1)
        defaultShutdownTimeout).2
      = some "server shutdown failed: context deadline exceeded" :=
  (claim_C10_shutdown_stops_refresh_before_listener true
      (defaultShutdownTimeout + 1)).2.1 rfl (by omega)

/-- C2 as stated is false at this concrete reachable state: one repository
whose construction refresh succeeded (cumulative success count 1) and whose
most recent refresh attempt then failed. Its RefreshCount is still >= 1, so
the claim says IsReady must be true, but the code also requires the
IsHealthy flag, which the failure cleared: IsReady is false. -/
theorem claim_C2_counterexample :
    Server.recordRefreshError (newServerStatuses [⟨"r", .ok⟩] 5) "r" "boom"
      = [⟨"r", 5, "boom", 1, 1, false⟩] ∧
    ((Server.recordRefreshError (newServerStatuses [⟨"r", .ok⟩] 5) "r"
        "boom").any fun st => decide (1 ≤ st.refreshCount)) = true ∧
    Server.IsReady
        (Server.recordRefreshError (newServerStatuses [⟨"r", .ok⟩] 5) "r"
          "boom") = false :=
  ⟨rfl, rfl, rfl⟩

/-- C2 corrected: over every reachable server state (construction at time
`now` followed by any interleaving `tr` of recorded background refresh
outcomes), IsReady is true iff SOME repository's most recent refresh
attempt succeeded — at least one success must exist AND the latest attempt
must have been a success, not merely a cumulative success count >= 1. -/
theorem claim_C2_isReady_iff_some_repo_last_success
    (repos : List RepoSpec) (now : Nat) (tr : List RefreshEvent)
    (hd : (repos.map RepoSpec.name).Nodup) :
    Server.IsReady (serverAfterTrace (newServerStatuses repos now) tr) = true
      ↔ ∃ r ∈ repos, (lastOutcome r tr).isOk = true := by
  rw [newServer_afterTrace_eq repos now tr hd, Server_IsReady_iff]
  constructor
  · rintro ⟨st, hst, hpos, hh⟩
    rcases List.mem_map.mp hst with ⟨r, hr, rfl⟩
    refine ⟨r, hr, ?_⟩
    rw [eventsFor_full hd hr now tr, entry_isHealthy] at hh
    exact hh
  · rintro ⟨r, hr, hok⟩
    refine ⟨applyResults (initStatus r.name)
        (eventsFor r.name (constructionTrace repos now ++ tr)),
      List.mem_map_of_mem _ hr, ?_, ?_⟩
    · have hinv := applyResults_inv (initStatus_inv r.name)
        (eventsFor r.name (constructionTrace repos now ++ tr))
      apply hinv.2
      rw [eventsFor_full hd hr now tr, entry_isHealthy]
      exact hok
    · rw [eventsFor_full hd hr now tr, entry_isHealthy]
      exact hok

/-- Witness for the corrected C2: a single repository whose only recorded
attempt (the construction refresh) succeeded makes the server ready. -/
theorem claim_C2_witness :
    Server.IsReady
        (serverAfterTrace (newServerStatuses [⟨"a", .ok⟩] 1) []) = true :=
  (claim_C2_isReady_iff_some_repo_last_success [⟨"a", .ok⟩] 1 []
      (by decide)).mpr ⟨⟨"a", .ok⟩, by decide, rfl⟩

/-- C6: Server construction refreshes every repository synchronously and is
total — an individual failure is recorded in that repository's status entry
(error message stored, error count 1, healthy flag false, zero successes)
and aborts nothing. In the single-failing-repository scenario the resulting
server reports IsHealthy false and IsReady false. -/
theorem claim_C6_server_construction_tolerates_failures
    (repos : List RepoSpec) (now : Nat)
    (hd : (repos.map RepoSpec.name).Nodup) :
    (∀ r ∈ repos, ∀ e, r.firstRefresh = .err e →
        (⟨r.name, 0, e, 0, 1, false⟩ : RepositoryStatus)
          ∈ newServerStatuses repos now) ∧
    (Server.IsHealthy
        (newServerStatuses [⟨"repo1", .err "fetch failed"⟩] now) = false ∧
      Server.IsReady
        (newServerStatuses [⟨"repo1", .err "fetch failed"⟩] now) = false) := by
  constructor
  · intro r hr e he
    have h1 := newServer_afterTrace_eq repos now [] hd
    have h0 : serverAfterTrace (newServerStatuses repos now) []
        = newServerStatuses repos now := rfl
    rw [h0] at h1
    rw [h1]
    have h2 : applyResults (initStatus r.name)
        (eventsFor r.name (constructionTrace repos now ++ []))
        = (⟨r.name, 0, e, 0, 1, false⟩ : RepositoryStatus) := by
      rw [eventsFor_full hd hr now []]
      show applyResults
        (applyResult (initStatus r.name) (r.firstRefresh, now))
        (eventsFor r.name []) = _
      rw [he]
      rfl
    exact h2 ▸ List.mem_map_of_mem _ hr
  · exact ⟨rfl, rfl⟩

/-- Witness for C6: a two-repository server where "a" fails construction
holds the recorded failure entry for "a", and the single-failing-repo
scenario is unhealthy. -/
theorem claim_C6_witness :
    (⟨"a", 0, "x", 0, 1, false⟩ : RepositoryStatus)
      ∈ newServerStatuses [⟨"a", .err "x"⟩, ⟨"b", .ok⟩] 3 ∧
    Server.IsHealthy
        (newServerStatuses [⟨"repo1", .err "fetch failed"⟩] 3) = false :=
  ⟨(claim_C6_server_construction_tolerates_failures
        [⟨"a", .err "x"⟩, ⟨"b", .ok⟩] 3 (by decide)).1
      ⟨"a", .err "x"⟩ (by decide) "x" rfl,
    (claim_C6_server_construction_tolerates_failures
        [⟨"a", .err "x"⟩, ⟨"b", .ok⟩] 3 (by decide)).2.1⟩

/-- C9: over every reachable server state, IsHealthy is true iff the
repository set is non-empty and EVERY repository's most recent refresh
outcome (its construction refresh, or the last background refresh recorded
against it) was a success. One failing repository makes the whole server
unhealthy, and a server with zero repositories is unhealthy. -/
theorem claim_C9_isHealthy_iff_all_repos_last_success
    (repos : List RepoSpec) (now : Nat) (tr : List RefreshEvent)
    (hd : (repos.map RepoSpec.name).Nodup) :
    Server.IsHealthy (serverAfterTrace (newServerStatuses repos now) tr) = true
      ↔ repos ≠ [] ∧ ∀ r ∈ repos, (lastOutcome r tr).isOk = true := by
  rw [newServer_afterTrace_eq repos now tr hd, Server_IsHealthy_iff]
  constructor
  · rintro ⟨hall, hlen⟩
    constructor
    · intro hnil
      rw [hnil] at hlen
      simp at hlen
    · intro r hr
      have hh := hall _ (List.mem_map_of_mem _ hr)
      rw [eventsFor_full hd hr now tr, entry_isHealthy] at hh
      exact hh
  · rintro ⟨hne, hall⟩
    constructor
    · intro st hst
      rcases List.mem_map.mp hst with ⟨r, hr, rfl⟩
      rw [eventsFor_full hd hr now tr, entry_isHealthy]
      exact hall r hr
    · rw [List.length_map]
      exact List.length_pos.mpr hne

/-- Witness for C9: two repositories, both of whose construction refreshes
succeeded with no later events, yield a healthy server. -/
theorem claim_C9_witness :
    Server.IsHealthy
        (serverAfterTrace (newServerStatuses [⟨"a", .ok⟩, ⟨"b", .ok⟩] 1) [])
      = true :=
  (claim_C9_isHealthy_iff_all_repos_last_success [⟨"a", .ok⟩, ⟨"b", .ok⟩]
      1 [] (by decide)).mpr ⟨by decide, by decide⟩
